import Mathlib

/-!
Shallow embedding of the wismo-bot decision core.

Source files embedded here:
  * `policies/diagnosis.py` — the Diagnosis Engine (`diagnose`, `_parse_ts`,
    `_last_event_ts`, `_hours_since` and the status vocabularies);
  * `policies/rules.py` — the Policy Engine (`recommended_action`,
    `_latest_delivered_ts`, `_hours_since`);
  * `llm/client.py` — the rule-based intent extractor (`_stub_intent`,
    `_normalize_msg` and its regex searches);
  * `tools/orders.py` — `get_order` (authorization check);
  * `tools/tracking.py` — `get_tracking` over `MOCK_SHIPMENTS`;
  * `app/graph.py` — the `retrieve_node` and `decide_node` pipeline stages
    together with `_get_effective_message` and the shared `GraphState`.

Modelling conventions:
  * Python `str` is `String`; all character-level operations (`lower`, `strip`,
    substring membership, `str.replace`) are implemented on `List Char` so that
    they are structurally recursive and kernel-computable.  `lower` is modelled
    on the ASCII range, matching every string constant in the repository.
  * The wall clock `datetime.now(timezone.utc)` is passed in explicitly as a
    `now : Nat` (seconds since 0001-01-01T00:00:00, mirroring Python's
    proleptic-Gregorian `datetime.toordinal` arithmetic).
  * `datetime.fromisoformat` is modelled on the timestamp shape used throughout
    the repository: `YYYY-MM-DDTHH:MM:SS` optionally followed by `+00:00`
    (which `_parse_ts` produces from a trailing `Z`).  Any other string parses
    to `none`, mirroring the `try/except` in the sources.  A parsed value keeps
    an `aware` flag: Python timestamps without a UTC offset are offset-naive,
    and comparing or subtracting naive and aware datetimes raises `TypeError`.
  * Monetary values and confidence scores are `ℚ`; every comparison performed
    by the sources (`> 300.0`, `< 24`, `>= 48`) is exact at integer-second
    granularity, so rationals and Python floats agree on them.
  * Python exceptions that escape a function are modelled with `Except`;
    exceptions that the source swallows (logging, session writes) touch no
    state that the claims observe and are noted where they occur.
-/

/-! ### Character and string helpers -/

/-- ASCII lowercasing of a single character, as used by Python `str.lower` on
the repository's ASCII status strings and keywords. -/
def charLower (c : Char) : Char :=
  if 'A' ≤ c ∧ c ≤ 'Z' then Char.ofNat (c.toNat + 32) else c

/-- Python `str.lower` (ASCII fragment). -/
def lowerStr (s : String) : String :=
  String.mk (s.toList.map charLower)

/-- Python `str.strip`: drop leading and trailing whitespace. -/
def trimList (l : List Char) : List Char :=
  ((l.dropWhile Char.isWhitespace).reverse.dropWhile Char.isWhitespace).reverse

/-- Python `s.lower().strip()`, the normalization applied to statuses and
messages in `policies/diagnosis.py` and `policies/rules.py`. -/
def lowerTrim (s : String) : String :=
  String.mk (trimList (s.toList.map charLower))

/-- Helper for Python's substring test `needle in hay` (character lists). -/
def isSubOf (needle : List Char) : List Char → Bool
  | [] => needle.isPrefixOf []
  | c :: cs => needle.isPrefixOf (c :: cs) || isSubOf needle cs

/-- Python's substring test `needle in hay` on strings. -/
def substrIn (needle hay : String) : Bool :=
  isSubOf needle.toList hay.toList

/-! ### Timestamps (`_parse_ts` in `policies/diagnosis.py`, `policies/rules.py`
and `tools/cases.py` are three identical copies of the same helper) -/

/-- Result of Python `datetime.fromisoformat`: `aware` records whether the
string carried a UTC offset, `secs` is the instant in seconds since
0001-01-01T00:00:00. -/
structure PyDateTime where
  aware : Bool
  secs : Nat
deriving DecidableEq

/-- Read a fixed-width decimal field. -/
def digitsToNat (cs : List Char) : Option Nat :=
  if cs ≠ [] ∧ cs.all Char.isDigit then
    some (cs.foldl (fun acc c => acc * 10 + (c.toNat - 48)) 0)
  else none

def isLeapYear (y : Nat) : Bool :=
  (y % 4 == 0 && y % 100 != 0) || y % 400 == 0

def daysInMonth (y m : Nat) : Nat :=
  if m = 2 then (if isLeapYear y then 29 else 28)
  else if m = 4 ∨ m = 6 ∨ m = 9 ∨ m = 11 then 30
  else 31

def daysBeforeMonth (y m : Nat) : Nat :=
  (List.range (m - 1)).foldl (fun acc i => acc + daysInMonth y (i + 1)) 0

/-- Day number of y-m-d in the proleptic Gregorian calendar, day 1 being
0001-01-01 (Python's `datetime.toordinal`). -/
def toOrdinal (y m d : Nat) : Nat :=
  365 * (y - 1) + (y - 1) / 4 + (y - 1) / 400 - (y - 1) / 100 + daysBeforeMonth y m + d

/-- Seconds since 0001-01-01T00:00:00. -/
def epochSecs (y m d h mi s : Nat) : Nat :=
  (toOrdinal y m d - 1) * 86400 + h * 3600 + mi * 60 + s

/-- Python `datetime.fromisoformat`, modelled on the timestamp shape the
repository stores: `YYYY-MM-DDTHH:MM:SS` (offset-naive) optionally followed by
`+00:00` (offset-aware, UTC).  A space may replace the `T` separator.  Any
other string yields `none` (the sources always call this inside
`try/except`). -/
def fromisoformat (s : String) : Option PyDateTime :=
  let cs := s.toList
  if cs.length = 19 ∨ (cs.length = 25 ∧ cs.drop 19 = ['+', '0', '0', ':', '0', '0']) then
    match digitsToNat (cs.take 4), digitsToNat ((cs.drop 5).take 2),
          digitsToNat ((cs.drop 8).take 2), digitsToNat ((cs.drop 11).take 2),
          digitsToNat ((cs.drop 14).take 2), digitsToNat ((cs.drop 17).take 2) with
    | some y, some mo, some d, some h, some mi, some sec =>
      if cs[4]? = some '-' ∧ cs[7]? = some '-' ∧
          (cs[10]? = some 'T' ∨ cs[10]? = some ' ') ∧
          cs[13]? = some ':' ∧ cs[16]? = some ':' ∧
          1 ≤ y ∧ y ≤ 9999 ∧ 1 ≤ mo ∧ mo ≤ 12 ∧ 1 ≤ d ∧ d ≤ daysInMonth y mo ∧
          h ≤ 23 ∧ mi ≤ 59 ∧ sec ≤ 59 then
        some ⟨cs.length == 25, epochSecs y mo d h mi sec⟩
      else none
    | _, _, _, _, _, _ => none
  else none

/-- Python `ts.replace("Z", "+00:00")` (every occurrence of the one-character
needle is replaced). -/
def replaceZ (s : String) : String :=
  String.mk (s.toList.foldr
    (fun c acc => if c = 'Z' then '+' :: '0' :: '0' :: ':' :: '0' :: '0' :: acc else c :: acc)
    [])

/-- The `_parse_ts` helper shared (as identical copies) by
`policies/diagnosis.py`, `policies/rules.py` and `tools/cases.py`:
falsy input (`None` or `""`) gives `None`; otherwise replace `Z` and parse,
with parse failures returning `None`. -/
def parse_ts (ts : Option String) : Option PyDateTime :=
  match ts with
  | none => none
  | some t => if t = "" then none else fromisoformat (replaceZ t)

/-! ### Data model (`app/models.py`) -/

structure TrackingEvent where
  ts : String
  status : String
  location : Option String := none
deriving DecidableEq

structure Shipment where
  tracking_id : String
  carrier : String
  current_status : String
  timeline : List TrackingEvent := []
deriving DecidableEq

structure Order where
  order_id : String
  email : String
  value : ℚ
  tracking_id : String
deriving DecidableEq

/-- A Python exception escaping a call. The only uncaught exception kind the
embedded fragments can raise is `TypeError` (naive/aware datetime mixing, and
calls passing a keyword argument the callee does not accept). -/
inductive PyError where
  | typeError
deriving DecidableEq

/-! ### Diagnosis Engine (`policies/diagnosis.py`) -/

structure Diagnosis where
  label : String
  confidence : ℚ
  notes : String := ""
deriving DecidableEq

def DELIVERED_STATUSES : List String := ["delivered", "delivery_confirmed", "delivered_to_mailroom"]
def RTS_STATUSES : List String := ["returned_to_sender", "return_to_sender", "rts"]
def ATTEMPT_STATUSES : List String := ["delivery_attempted", "attempted", "attempted_delivery", "notice_left"]
def DAMAGED_STATUSES : List String := ["damaged", "damage_reported"]
def DELAY_STATUSES : List String := ["delayed", "delay", "exception", "weather_delay"]

/-- Python's `max(dts) if dts else None` over datetimes: `max` compares the
values pairwise and raises `TypeError` as soon as an offset-naive and an
offset-aware datetime meet; with a uniform awareness flag it returns the
maximum instant (all aware values here carry the same `+00:00` offset). -/
def pyMaxDatetimes (dts : List PyDateTime) : Except PyError (Option PyDateTime) :=
  match dts with
  | [] => .ok none
  | d :: rest =>
    if rest.all (fun e => e.aware == d.aware) then
      .ok (some ⟨d.aware, (rest.map PyDateTime.secs).foldl max d.secs⟩)
    else .error .typeError

/-- The parsable timestamps of a timeline, in timeline order: the
`dts = [_parse_ts(e.ts) for e in timeline if e.ts]` comprehension followed by
the `None` filter. -/
def timelineDts (timeline : List TrackingEvent) : List PyDateTime :=
  (timeline.filter (fun e => !(e.ts == ""))).filterMap (fun e => parse_ts (some e.ts))

/-- The `_last_event_ts` helper: collect the parsable timestamps of the
timeline and take their `max`. -/
def last_event_ts (timeline : List TrackingEvent) : Except PyError (Option PyDateTime) :=
  if timeline.isEmpty then .ok none
  else pyMaxDatetimes (timelineDts timeline)

/-- The `_hours_since` helper of `policies/diagnosis.py`:
`(now - dt).total_seconds() / 3600.0`.  Subtracting an offset-naive datetime
from the offset-aware `now` raises `TypeError`. -/
def hours_since (now : Nat) (dt : Option PyDateTime) : Except PyError (Option ℚ) :=
  match dt with
  | none => .ok none
  | some d =>
    if d.aware then .ok (some (((now : ℚ) - (d.secs : ℚ)) / 3600)) else .error .typeError

/-- The Diagnosis Engine `diagnose(message, shipment)`.  `now` stands for the
`datetime.now(timezone.utc)` read inside `_hours_since`.  The final guard of
rule 6 is Python's `if hrs and hrs >= 48`, whose truthiness test makes `0.0`
falsy. -/
def diagnose (now : Nat) (message : String) (shipment : Shipment) : Except PyError Diagnosis :=
  let msg := lowerTrim message
  let status := lowerTrim shipment.current_status
  if RTS_STATUSES.contains status then
    .ok ⟨"return_to_sender", 0.95, "tracking status indicates RTS"⟩
  else if DAMAGED_STATUSES.contains status || substrIn "damag" msg then
    .ok ⟨"damaged", 0.85, "damage keyword/status detected"⟩
  else if ATTEMPT_STATUSES.contains status || (substrIn "attempt" msg || substrIn "not home" msg) then
    .ok ⟨"delivery_attempted", 0.80, "attempt keyword/status detected"⟩
  else if DELIVERED_STATUSES.contains status then
    if ["not received", "did not receive", "missing", "stolen"].any (fun k => substrIn k msg) then
      .ok ⟨"delivered_not_received", 0.85, "delivered + not received"⟩
    else
      .ok ⟨"delivered", 0.70, "delivered status"⟩
  else if DELAY_STATUSES.contains status || substrIn "delay" msg then
    .ok ⟨"delayed", 0.70, ""⟩
  else if ["in_transit", "out_for_delivery", "picked_up"].contains status then
    match last_event_ts shipment.timeline with
    | .error e => .error e
    | .ok last_dt =>
      match hours_since now last_dt with
      | .error e => .error e
      | .ok hrs =>
        match hrs with
        | some h =>
          if h ≠ 0 ∧ 48 ≤ h then .ok ⟨"stuck_in_transit", 0.75, ""⟩
          else .ok ⟨"in_transit", 0.60, ""⟩
        | none => .ok ⟨"in_transit", 0.60, ""⟩
  else
    .ok ⟨"unknown", 0.40, ""⟩

/-! ### Policy Engine (`policies/rules.py`) -/

def DELIVERED_WAIT_HOURS : ℚ := 24
def HIGH_VALUE_THRESHOLD : ℚ := 300

/-- The `_latest_delivered_ts` helper: the timestamp of the last
delivered-status event in timeline (insertion) order, skipping events with a
falsy timestamp. -/
def latest_delivered_ts (shipment : Shipment) : Option String :=
  if shipment.timeline.isEmpty then none
  else
    shipment.timeline.foldl
      (fun latest ev =>
        if ["delivered", "delivery_confirmed", "delivered_to_mailroom"].contains (lowerTrim ev.status)
            && !(ev.ts == "") then
          some ev.ts
        else latest)
      none

/-- The `_hours_since` helper of `policies/rules.py` (takes the raw timestamp
string; a datetime is never falsy in Python, so `if not dt` is exactly the
`None` test). -/
def hours_since_ts (now : Nat) (ts : Option String) : Except PyError (Option ℚ) :=
  match parse_ts ts with
  | none => .ok none
  | some d =>
    if d.aware then .ok (some (((now : ℚ) - (d.secs : ℚ)) / 3600)) else .error .typeError

/-- The Policy Engine `recommended_action(order, shipment)`.  Its signature has
exactly these two parameters; it dispatches on the shipment status (not on a
diagnosis label).  `order.value` is a non-optional float in `app/models.py`, so
`is_high_value` reduces to the `> 300.0` comparison. -/
def recommended_action (now : Nat) (order : Order) (shipment : Shipment) : Except PyError String :=
  let status := lowerTrim shipment.current_status
  let is_high_value : Bool := decide (HIGH_VALUE_THRESHOLD < order.value)
  if ["returned_to_sender", "return_to_sender", "rts"].contains status then
    .ok "verify_address"
  else if ["delivered", "delivery_confirmed", "delivered_to_mailroom"].contains status then
    let delivered_ts := latest_delivered_ts shipment
    match (match delivered_ts with
            | some _ => hours_since_ts now delivered_ts
            | none => .ok none) with
    | .error e => .error e
    | .ok hrs =>
      match hrs with
      | some h =>
        if h < DELIVERED_WAIT_HOURS then .ok "advise_wait_then_investigate"
        else if is_high_value then .ok "open_investigation"
        else .ok "escalate"
      | none =>
        if is_high_value then .ok "open_investigation"
        else .ok "escalate"
  else if is_high_value && ["exception", "damaged", "lost", "unknown"].contains status then
    .ok "open_investigation"
  else if ["in_transit", "out_for_delivery", "label_created", "picked_up"].contains status then
    .ok "reassure_and_monitor"
  else
    .ok "escalate"

example : lowerTrim "  Delivered " = "delivered" := by decide
example : substrIn "damag" "package damaged" = true := by decide
example : parse_ts (some "2026-01-27T15:10:00Z") = some ⟨true, epochSecs 2026 1 27 15 10 0⟩ := by decide
example : parse_ts (some "2026-01-27T15:10:00") = some ⟨false, epochSecs 2026 1 27 15 10 0⟩ := by decide
example : parse_ts (some "garbage") = none := by decide
example : parse_ts (some "") = none := by decide

/-! ### Rule-based intent extractor (`llm/client.py`) -/

/-- Python regex word character `\w` (ASCII fragment). -/
def isWordChar (c : Char) : Bool :=
  c.isAlphanum || c = '_'

/-- A `\b` boundary holds after a match when the following character (if any)
is not a word character. -/
def boundaryAfter (l : List Char) : Bool :=
  match l with
  | [] => true
  | c :: _ => !isWordChar c

/-- Greedy matching of `\d{3,6}\b` against `rest` (whose maximal leading digit
run is `ds`): the regex engine tries six digits first and backtracks down to
three. -/
def matchDigitsRun (ds rest : List Char) : List Nat → Option (List Char)
  | [] => none
  | k :: ks =>
    if k ≤ ds.length ∧ boundaryAfter (rest.drop k) then some (ds.take k)
    else matchDigitsRun ds rest ks

/-- Match `\bA\d{3,6}\b` anchored at the head of `l`, where `prev` is the
character just before this position (for the left `\b`). -/
def matchOrderIdAt (prev : Option Char) (l : List Char) : Option (List Char) :=
  if prev.all (fun p => !isWordChar p) then
    match l with
    | c :: rest =>
      if c = 'A' then
        match matchDigitsRun (rest.takeWhile Char.isDigit) rest [6, 5, 4, 3] with
        | some ds => some ('A' :: ds)
        | none => none
      else none
    | [] => none
  else none

/-- Scan left to right for the first position where `\bA\d{3,6}\b` matches. -/
def searchOrderIdAux (prev : Option Char) : List Char → Option (List Char)
  | [] => none
  | c :: cs =>
    match matchOrderIdAt prev (c :: cs) with
    | some m => some m
    | none => searchOrderIdAux (some c) cs

/-- `re.search(r"\bA\d{3,6}\b", user_message or "")` from `_stub_intent`:
case-sensitive, performed on the raw message. -/
def searchOrderId (s : String) : Option String :=
  (searchOrderIdAux none s.toList).map String.mk

/-- The character class `[\w.-]` of the email pattern. -/
def isEmailChar (c : Char) : Bool :=
  isWordChar c || c = '.' || c = '-'

/-- Backtracking for the `\.\w+` tail of the email pattern inside the maximal
post-`@` run `run2`: the engine shortens the second `[\w.-]+` from the right
until the next character is a literal dot followed by at least one word
character. -/
def emailTail (run2 : List Char) : Nat → Option (List Char)
  | 0 => none
  | p + 1 =>
    match run2.drop (p + 1) with
    | '.' :: after =>
      let w := after.takeWhile isWordChar
      if !w.isEmpty then some (run2.take (p + 1) ++ '.' :: w)
      else emailTail run2 p
    | _ => emailTail run2 p

/-- Match `[\w\.-]+@[\w\.-]+\.\w+` anchored at the head of `l`.  `@` is not in
the `[\w.-]` class, so the first run is forced to be the maximal run ending
right before a literal `@`. -/
def matchEmailAt (l : List Char) : Option (List Char) :=
  let run1 := l.takeWhile isEmailChar
  if run1.isEmpty then none
  else
    match l.drop run1.length with
    | '@' :: rest2 =>
      let run2 := rest2.takeWhile isEmailChar
      match emailTail run2 (run2.length - 1) with
      | some tail => some (run1 ++ '@' :: tail)
      | none => none
    | _ => none

/-- Scan left to right for the first email-shaped substring. -/
def searchEmailAux : List Char → Option (List Char)
  | [] => none
  | c :: cs =>
    match matchEmailAt (c :: cs) with
    | some m => some m
    | none => searchEmailAux cs

/-- `re.search(r"[\w\.-]+@[\w\.-]+\.\w+", user_message or "")` from
`_stub_intent`. -/
def searchEmail (s : String) : Option String :=
  (searchEmailAux s.toList).map String.mk

/-- Replace every occurrence of the nonempty pattern `pat` by `rep`, with a
structural fuel argument (each step consumes at least one character, so fuel
`l.length` never runs out). -/
def replaceFuel (pat rep : List Char) : Nat → List Char → List Char
  | 0, l => l
  | _ + 1, [] => []
  | fuel + 1, c :: cs =>
    if pat.isPrefixOf (c :: cs) ∧ pat ≠ [] then
      rep ++ replaceFuel pat rep fuel (cs.drop (pat.length - 1))
    else
      c :: replaceFuel pat rep fuel cs

/-- Replace every occurrence of the nonempty pattern `pat` by `rep`
(Python `str.replace`). -/
def replaceList (pat rep l : List Char) : List Char :=
  replaceFuel pat rep l.length l

/-- Split into whitespace-separated words (accumulator reversed). -/
def wordsAux (cur : List Char) : List Char → List (List Char)
  | [] => if cur.isEmpty then [] else [cur.reverse]
  | c :: cs =>
    if c.isWhitespace then
      if cur.isEmpty then wordsAux [] cs else cur.reverse :: wordsAux [] cs
    else wordsAux (c :: cur) cs

/-- `re.sub(r"\s+", " ", m).strip()`: collapse whitespace runs to single
spaces and strip the ends — i.e. join the words with single spaces. -/
def collapseWs (l : List Char) : List Char :=
  (List.intersperse [' '] (wordsAux [] l)).flatten

/-- The `_normalize_msg` helper of `llm/client.py`: lower-case, straighten the
curly apostrophe of `didn’t`, collapse whitespace and strip. -/
def normalize_msg (m : String) : String :=
  String.mk (collapseWs (replaceList "didn’t".toList "didn\x27t".toList (m.toList.map charLower)))

structure IntentOutput where
  intent : String
  extracted_order_id : Option String
  extracted_email : Option String
  missing_fields : List String
  risk_flags : List String
  confidence : ℚ
  suggested_next_action : String
deriving DecidableEq

def delivered_phrases : List String := ["delivered", "left at door", "front door", "porch"]

def not_received_phrases : List String :=
  ["not received", "still not received", "did not receive", "didn\x27t receive", "didnt receive",
   "did not get", "didn\x27t get", "didnt get", "never received", "missing", "not here",
   "not delivered to me"]

def attempt_phrases : List String :=
  ["attempt", "attempted", "tried to deliver", "delivery attempt", "no one was home",
   "nobody was home"]

def damage_phrases : List String := ["damag", "broken", "cracked", "smash", "torn"]

def rts_phrases : List String := ["return to sender", "returned", "rts", "sent back"]

def delay_phrases : List String := ["delay", "delayed", "late", "taking too long"]

def stuck_phrases : List String :=
  ["stuck", "not moving", "no movement", "hasn\x27t moved", "hasnt moved", "no update",
   "not updated"]

/-- The rule-based intent extractor `_stub_intent` of `llm/client.py`.
Keyword matching runs on the normalized (lower-cased, whitespace-collapsed)
message; the order-id and email regex searches run on the raw
`user_message`. -/
def stub_intent (user_message : String) : IntentOutput :=
  let msg := normalize_msg user_message
  let delivered_like := delivered_phrases.any (fun p => substrIn p msg)
  let not_received_like := not_received_phrases.any (fun p => substrIn p msg)
  let intent :=
    if (delivered_like && not_received_like) || not_received_like then "delivered_not_received"
    else if attempt_phrases.any (fun p => substrIn p msg) then "delivery_attempted"
    else if damage_phrases.any (fun p => substrIn p msg) then "damaged"
    else if rts_phrases.any (fun p => substrIn p msg) then "return_to_sender"
    else if delay_phrases.any (fun p => substrIn p msg) then "delayed"
    else if stuck_phrases.any (fun p => substrIn p msg) then "stuck_in_transit"
    else "track_order"
  let order_id := searchOrderId user_message
  let email := searchEmail user_message
  let missing :=
    (if order_id.isNone then ["order_id"] else []) ++ (if email.isNone then ["email"] else [])
  { intent := intent
    extracted_order_id := order_id
    extracted_email := email
    missing_fields := missing
    risk_flags := []
    confidence := 0.55
    suggested_next_action := if !missing.isEmpty then "ask_followup" else "proceed" }

example : searchOrderId "please check A1004 now" = some "A1004" := by decide
example : searchOrderId "please check a1004 now" = none := by decide
example : searchOrderId "xA1004" = none := by decide
example : searchOrderId "A1234567" = none := by decide
example : searchOrderId "A123x" = none := by decide
example : searchOrderId "(A123)" = some "A123" := by decide
example : searchEmail "mail me at jo.do-e@sub.shop.com please" = some "jo.do-e@sub.shop.com" := by decide
example : searchEmail "nothing here" = none := by decide
example : normalize_msg "  Didn’t   ARRIVE  " = "didn\x27t arrive" := by decide
example : (stub_intent "Still not received").intent = "delivered_not_received" := by decide

/-! ### Pipeline state and stages (`app/graph.py`) -/

/-- Session memory (`tools/sessions.py` document shape). -/
structure SessionData where
  order_id : Option String := none
  email : Option String := none
  last_intent : Option String := none
  last_question : Option String := none
  missing_fields : List String := []
  last_complaint : Option String := none
  active_case_id : Option String := none
deriving DecidableEq

/-- The audit records that `retrieve_node`/`decide_node` append to
`state["actions"]` (mirroring the dict payloads of the source). -/
inductive ActionRec where
  | llm_intent (intent : String) (missing_fields : List String) (confidence : ℚ)
  | tool_get_order (order_id : String)
  | tool_get_tracking (tracking_id : String)
  | diagnosis (label : String) (confidence : ℚ)
  | decision (decision : String)
  | tool_create_case (case_id : String) (handoff_note : String)
  | tool_reuse_case (case_id : String) (handoff_note : String)
deriving DecidableEq

/-- The `GraphState` TypedDict of `app/graph.py`.  `intake_node` guarantees
`actions`, `reply` and `case_id` defaults before the later stages run; a
missing optional key and an explicit `None` both map to `none`. -/
structure GraphState where
  message : String := ""
  order_id : Option String := none
  email : Option String := none
  session_id : String := "demo-session"
  session : SessionData := {}
  llm_intent : Option IntentOutput := none
  diagnosis : Option (String × ℚ) := none
  actions : List ActionRec := []
  reply : String := ""
  case_id : Option String := none
  order : Option Order := none
  shipment : Option Shipment := none
deriving DecidableEq

/-- Outcome of one document lookup against the external store. -/
inductive StoreResult (α : Type) where
  | found (a : α)
  | missing
  | failure
deriving DecidableEq

/-- The external order store reachable through `get_firestore_client()`:
`failure` stands for any transient backend error raised by the lookup. -/
structure Env where
  orders : String → StoreResult Order

/-- Exceptions raised by the lookup helpers and caught in `retrieve_node`. -/
inductive RetrieveErr where
  | valueError
  | permissionError
  | otherError
deriving DecidableEq

/-- `tools/orders.py` `get_order`: a missing document raises
`ValueError("Order not found.")`; a case-insensitive email mismatch raises
`PermissionError("Email does not match order.")`. -/
def get_order (env : Env) (order_id email : String) : Except RetrieveErr Order :=
  match env.orders order_id with
  | .failure => .error .otherError
  | .missing => .error .valueError
  | .found data =>
    if lowerStr data.email ≠ lowerStr email then .error .permissionError
    else .ok data

/-- The hard-coded `MOCK_SHIPMENTS` dict of `tools/tracking.py`. -/
def MOCK_SHIPMENTS (tracking_id : String) : Option Shipment :=
  if tracking_id = "T9001" then
    some ⟨"T9001", "MockCarrier", "in_transit",
      [⟨"2026-01-28T10:00:00Z", "label_created", some "Toronto"⟩,
        ⟨"2026-01-29T09:00:00Z", "picked_up", some "Toronto"⟩,
        ⟨"2026-01-31T18:00:00Z", "in_transit", some "Mississauga"⟩]⟩
  else if tracking_id = "T9002" then
    some ⟨"T9002", "MockCarrier", "delivered",
      [⟨"2026-01-25T11:00:00Z", "picked_up", some "Toronto"⟩,
        ⟨"2026-01-27T09:30:00Z", "out_for_delivery", some "Windsor"⟩,
        ⟨"2026-01-27T15:10:00Z", "delivered", some "Windsor"⟩]⟩
  else none

/-- `tools/tracking.py` `get_tracking`: raises
`ValueError("Tracking not found.")` when the id is absent. -/
def get_tracking (tracking_id : String) : Except RetrieveErr Shipment :=
  match MOCK_SHIPMENTS tracking_id with
  | none => .error .valueError
  | some s => .ok s

def PERMISSION_REPLY : String :=
  "That email doesn’t match the order on file. Please double-check and try again."

def NOT_FOUND_REPLY : String :=
  "I couldn’t find that order/tracking. Please confirm your order ID and email."

def GENERIC_RETRY_REPLY : String :=
  "Something went wrong while looking up your order. Please try again."

def NO_ORDER_DETAILS_REPLY : String :=
  "I couldn’t retrieve your order details. Please try again."

/-- The Retrieve stage `retrieve_node` of `app/graph.py`.  Every exception of
the lookup block is caught inside the node (`PermissionError`, `ValueError`,
bare `Exception`), so the stage always returns a state.  A missing or `None`
`order_id`/`email` makes the in-`try` lookup raise (`KeyError`/attribute or
client error), which the bare `except` turns into the generic retry reply.
`log_action`, `update_session` and `append_message` write only to the external
store, their failures are swallowed, and they never touch the state record.
Note that on the `get_tracking` not-found path the `get_order` audit record
has already been appended to `state["actions"]` (in-place mutation precedes
the raise). -/
def retrieve_node (env : Env) (st : GraphState) : GraphState :=
  if st.reply ≠ "" then st
  else
    match st.order_id, st.email with
    | some oid, some em =>
      match get_order env oid em with
      | .ok order =>
        let st1 := { st with actions := st.actions ++ [ActionRec.tool_get_order order.order_id] }
        match get_tracking order.tracking_id with
        | .ok shipment =>
          { st1 with
            actions := st1.actions ++ [ActionRec.tool_get_tracking shipment.tracking_id]
            order := some order
            shipment := some shipment }
        | .error _ => { st1 with reply := NOT_FOUND_REPLY }
      | .error .permissionError => { st with reply := PERMISSION_REPLY }
      | .error .valueError => { st with reply := NOT_FOUND_REPLY }
      | .error .otherError => { st with reply := GENERIC_RETRY_REPLY }
    | _, _ => { st with reply := GENERIC_RETRY_REPLY }

/-- The `_get_effective_message` helper of `app/graph.py` (`len` counts
characters; the length test applies to the stripped raw message). -/
def get_effective_message (st : GraphState) : String :=
  let raw := st.message
  match st.session.last_complaint with
  | some lc =>
    if lc ≠ "" then
      if (trimList raw.toList).length < 80 || substrIn "@" raw || substrIn "order" (lowerStr raw) then
        lc
      else raw
    else raw
  | none => raw

def REPEAT_CLAIM_LABELS : List String := ["delivered_not_received"]

def REPEAT_CLAIM_THRESHOLD : Nat := 2

/-- The Decide stage `decide_node` of `app/graph.py`.

After the two short-circuit checks the node rebuilds the order and shipment,
computes the effective message, runs the Diagnosis Engine, and then executes

  `action = recommended_action(order, shipment, message=effective_message)`

(graph.py line 261).  `policies/rules.py` defines
`recommended_action(order: Order, shipment: Shipment)` with no `message`
parameter and no keyword catch-all, so in Python this call raises
`TypeError: recommended_action() got an unexpected keyword argument`.
No `try/except` encloses the call inside `decide_node`, so the exception
propagates to the pipeline caller; the node never reaches the repeat-claim
override (lines 263-272), the reply templates, or the case creation/reuse
block (lines 326-398).  The later
`create_case(..., handoff_note=..., session_id=...)` call would raise the same
way, since `tools/cases.py` defines
`create_case(order_id, reason, user_message, email=None)` and accepts neither
keyword.  The `Except.error` result models the escaping exception (state
mutations made before the raise are discarded by the caller together with the
failed invocation).  The `diagnose` call at line 256 runs first and its own
`TypeError` (offset-naive timeline timestamps) escapes the node the same
way. -/
def decide_node (now : Nat) (st : GraphState) : Except PyError GraphState :=
  if st.reply ≠ "" then .ok st
  else
    match st.order, st.shipment with
    | some _order, some shipment =>
      let effective_message := get_effective_message st
      match diagnose now effective_message shipment with
      | .error e => .error e
      | .ok _diag => .error .typeError
    | _, _ => .ok { st with reply := NO_ORDER_DETAILS_REPLY }

/-! ### Claim-side definitions -/

/-- Claim-side reading of diagnosis rule 6's recency signal: the maximum of the
parsable timeline timestamps, as an instant in seconds. -/
def maxParsableTs (timeline : List TrackingEvent) : Option Nat :=
  ((timelineDts timeline).map PyDateTime.secs).max?

/-- Claim-side property for the order-id extraction: the message contains a
word-bounded occurrence of the uppercase letter A followed by three to six
digits. -/
def hasBoundedOrderId (s : String) : Prop :=
  ∃ pre ds post, s.toList = pre ++ 'A' :: (ds ++ post) ∧
    ds.all Char.isDigit = true ∧ 3 ≤ ds.length ∧ ds.length ≤ 6 ∧
    (∀ c, pre.getLast? = some c → isWordChar c = false) ∧
    (∀ c, post.head? = some c → isWordChar c = false)

/-- Store fixture for the C9 witness: one order whose stored email is
`owner@shop.com`. -/
def c9env : Env :=
  ⟨fun oid => if oid = "A1001" then .found ⟨"A1001", "owner@shop.com", 120, "T9001"⟩ else .missing⟩

/-- Request fixture for the C9 witness: the supplied email differs from the
stored one beyond case. -/
def c9state : GraphState :=
  { message := "where is A1001?", order_id := some "A1001", email := some "X@Y.com" }

/-- Shipment fixture for the C8 witness: the `T9001` mock shipment, whose last
in-transit event is at 2026-01-31T18:00:00Z. -/
def c8shipment : Shipment :=
  ⟨"T9001", "MockCarrier", "in_transit",
    [⟨"2026-01-28T10:00:00Z", "label_created", some "Toronto"⟩,
      ⟨"2026-01-29T09:00:00Z", "picked_up", some "Toronto"⟩,
      ⟨"2026-01-31T18:00:00Z", "in_transit", some "Mississauga"⟩]⟩

/-! ### Theorems -/

/-- C4: if the `ConversationState` reply field is non-empty on entry, both the
Retrieve stage and the Decide stage return the state exactly as it was on
entry — in particular `reply`, `case_id` and the order/shipment fields are
unchanged (idempotent short-circuit). -/
theorem c4_reply_short_circuit (env : Env) (now : Nat) (st : GraphState)
    (h : st.reply ≠ "") :
    retrieve_node env st = st ∧ decide_node now st = .ok st := by
  constructor
  · unfold retrieve_node
    simp [h]
  · unfold decide_node
    simp [h]

theorem c4_reply_short_circuit_witness :
    retrieve_node ⟨fun _ => .missing⟩ { message := "hi", reply := "all done" } =
      { message := "hi", reply := "all done" } ∧
    decide_node 0 { message := "hi", reply := "all done" } =
      .ok { message := "hi", reply := "all done" } :=
  c4_reply_short_circuit ⟨fun _ => .missing⟩ 0 { message := "hi", reply := "all done" }
    (by decide)

/-- C7: for every shipment whose lowercased, stripped `current_status` is in
the return-to-sender vocabulary, and for every message and clock value, the
Diagnosis Engine returns the label `return_to_sender` with confidence `0.95`,
regardless of the message content. -/
theorem c7_rts_diagnosis (now : Nat) (message : String) (shipment : Shipment)
    (h : RTS_STATUSES.contains (lowerTrim shipment.current_status) = true) :
    diagnose now message shipment =
      .ok ⟨"return_to_sender", 0.95, "tracking status indicates RTS"⟩ := by
  have hm : lowerTrim shipment.current_status ∈ RTS_STATUSES := by simpa using h
  unfold diagnose
  simp [hm]

theorem c7_rts_diagnosis_witness :
    diagnose 7 "my parcel is damaged and delayed and not received"
        ⟨"T77", "MockCarrier", " Returned_To_Sender ", []⟩ =
      .ok ⟨"return_to_sender", 0.95, "tracking status indicates RTS"⟩ :=
  c7_rts_diagnosis 7 "my parcel is damaged and delayed and not received"
    ⟨"T77", "MockCarrier", " Returned_To_Sender ", []⟩ (by decide)

/-- C1: the claim states that every request reaching the Decide stage with an
order and shipment present terminates without raising and leaves a non-empty
reply.  The code does the opposite: for every such state the stage raises —
`decide_node` calls `recommended_action(order, shipment, message=...)` while
`policies/rules.py` defines `recommended_action(order, shipment)` with no
`message` parameter, so the call raises `TypeError` (and on timelines with
offset-naive timestamps the `diagnose` call at line 256 raises `TypeError`
even earlier).  The exception escapes the node uncaught. -/
theorem c1_decide_stage_raises (now : Nat) (st : GraphState) (o : Order) (sh : Shipment)
    (hr : st.reply = "") (ho : st.order = some o) (hs : st.shipment = some sh) :
    ∃ e, decide_node now st = .error e := by
  unfold decide_node
  rw [hr, ho, hs]
  cases hdiag : diagnose now (get_effective_message st) sh with
  | error e => exact ⟨e, by simp [hdiag]⟩
  | ok d => exact ⟨.typeError, by simp [hdiag]⟩

theorem c1_decide_stage_raises_witness :
    ∃ e, decide_node 0
      { message := "where is my order",
        order_id := some "A1001", email := some "x@y.com",
        order := some ⟨"A1001", "x@y.com", 120, "T9001"⟩,
        shipment := some ⟨"T9001", "MockCarrier", "in_transit", []⟩ } = .error e :=
  c1_decide_stage_raises 0
    { message := "where is my order",
      order_id := some "A1001", email := some "x@y.com",
      order := some ⟨"A1001", "x@y.com", 120, "T9001"⟩,
      shipment := some ⟨"T9001", "MockCarrier", "in_transit", []⟩ }
    ⟨"A1001", "x@y.com", 120, "T9001"⟩
    ⟨"T9001", "MockCarrier", "in_transit", []⟩ rfl rfl rfl

/-- C5: the claim states that with a non-empty `active_case_id` already in the
session, a Decide run whose outcome is open_investigation/escalate reuses the
case (no `create_case` call, `case_id` equals the stored id, reuse event
logged).  The code never gets there: for every state that reaches the decision
(order and shipment present, no prior reply) the stage raises `TypeError` at
the `recommended_action(order, shipment, message=...)` call before any outcome
exists, so no reuse event is recorded and no resulting state is produced at
all. -/
theorem c5_case_reuse_preempted (now : Nat) (st : GraphState) (cid : String)
    (o : Order) (sh : Shipment)
    (hactive : st.session.active_case_id = some cid) (hcid : cid ≠ "")
    (hr : st.reply = "") (ho : st.order = some o) (hs : st.shipment = some sh) :
    ∃ e, decide_node now st = .error e := by
  unfold decide_node
  rw [hr, ho, hs]
  cases hdiag : diagnose now (get_effective_message st) sh with
  | error e => exact ⟨e, by simp [hdiag]⟩
  | ok d => exact ⟨.typeError, by simp [hdiag]⟩

theorem c5_case_reuse_preempted_witness :
    ∃ e, decide_node 0
      { message := "escalate this please, still not received",
        session := { active_case_id := some "CASE-1A2B3C4D" },
        order := some ⟨"A1001", "x@y.com", 420, "T9002"⟩,
        shipment := some ⟨"T9002", "MockCarrier", "delivered", []⟩ } = .error e :=
  c5_case_reuse_preempted 0
    { message := "escalate this please, still not received",
      session := { active_case_id := some "CASE-1A2B3C4D" },
      order := some ⟨"A1001", "x@y.com", 420, "T9002"⟩,
      shipment := some ⟨"T9002", "MockCarrier", "delivered", []⟩ }
    "CASE-1A2B3C4D"
    ⟨"A1001", "x@y.com", 420, "T9002"⟩
    ⟨"T9002", "MockCarrier", "delivered", []⟩ rfl (by decide) rfl rfl rfl

/-- C6: the claim describes the repeat-claim override (label gated on
delivered_not_received, threshold 2, fail-open on lookup failure).  The
override block (graph.py lines 263-272) is unreachable: even when the
diagnosis label is `delivered_not_received` — the exact gate of the override —
the Decide stage raises `TypeError` at the preceding
`recommended_action(order, shipment, message=...)` call, so there is no Policy
Engine action for any recent-claim count to change. -/
theorem c6_repeat_override_preempted (now : Nat) (st : GraphState)
    (o : Order) (sh : Shipment) (d : Diagnosis)
    (hr : st.reply = "") (ho : st.order = some o) (hs : st.shipment = some sh)
    (hd : diagnose now (get_effective_message st) sh = .ok d)
    (hlabel : d.label = "delivered_not_received") :
    decide_node now st = .error PyError.typeError := by
  unfold decide_node
  rw [hr, ho, hs]
  simp [hd]

theorem c6_repeat_override_preempted_witness :
    decide_node 0
      { message := "Still not received",
        order := some ⟨"A1001", "x@y.com", 420, "T9002"⟩,
        shipment := some ⟨"T9002", "MockCarrier", "delivered", []⟩ } =
      .error PyError.typeError :=
  c6_repeat_override_preempted 0
    { message := "Still not received",
      order := some ⟨"A1001", "x@y.com", 420, "T9002"⟩,
      shipment := some ⟨"T9002", "MockCarrier", "delivered", []⟩ }
    ⟨"A1001", "x@y.com", 420, "T9002"⟩
    ⟨"T9002", "MockCarrier", "delivered", []⟩
    ⟨"delivered_not_received", 0.85, "delivered + not received"⟩
    rfl rfl rfl rfl rfl

/-- C2 counterexample: a high-value order (400 > 300) whose shipment status is
`delayed` — so the diagnosis label is `delayed`, one of the labels the claim
lists — makes the Policy Engine return `escalate`, not `open_investigation`:
`recommended_action` dispatches on the shipment status, and `delayed` is in
neither its high-value set `{exception, damaged, lost, unknown}` nor its
reassure set. -/
theorem c2_counterexample :
    diagnose 0 "" ⟨"T1", "C", "delayed", []⟩ = .ok ⟨"delayed", 0.70, ""⟩ ∧
    HIGH_VALUE_THRESHOLD < (400 : ℚ) ∧
    recommended_action 0 ⟨"A1", "a@b.com", 400, "T1"⟩ ⟨"T1", "C", "delayed", []⟩ =
      .ok "escalate" ∧
    ("escalate" : String) ≠ "open_investigation" :=
  ⟨rfl, by norm_num [HIGH_VALUE_THRESHOLD], rfl, by decide⟩

/-- C2 amended: the Policy Engine dispatches on the shipment status, not on
the diagnosis label.  For every order with value strictly above the 300.0
threshold and every shipment whose lowercased, stripped `current_status` is in
the engine's exception set `{exception, damaged, lost, unknown}`, it returns
`open_investigation` (never `escalate` or `reassure_and_monitor`); a
return-to-sender status takes priority but is disjoint from that set. -/
theorem c2_amended_high_value_status (now : Nat) (order : Order) (shipment : Shipment)
    (hv : HIGH_VALUE_THRESHOLD < order.value)
    (hs : (["exception", "damaged", "lost", "unknown"] : List String).contains
        (lowerTrim shipment.current_status) = true) :
    recommended_action now order shipment = .ok "open_investigation" := by
  have hdec : decide (HIGH_VALUE_THRESHOLD < order.value) = true := decide_eq_true hv
  have hmem : lowerTrim shipment.current_status ∈
      (["exception", "damaged", "lost", "unknown"] : List String) := by simpa using hs
  simp only [List.mem_cons, List.not_mem_nil, or_false] at hmem
  rcases hmem with h | h | h | h <;>
    simp [recommended_action, h, hdec]

theorem c2_amended_high_value_status_witness :
    recommended_action 0 ⟨"A9", "a@b.com", 500, "T9"⟩ ⟨"T9", "C", "Unknown", []⟩ =
      .ok "open_investigation" :=
  c2_amended_high_value_status 0 ⟨"A9", "a@b.com", 500, "T9"⟩ ⟨"T9", "C", "Unknown", []⟩
    (by norm_num [HIGH_VALUE_THRESHOLD]) (by decide)

/-- C9: when the supplied email differs case-insensitively from the email
stored on the order, the Retrieve stage catches the `PermissionError` from
`get_order` and sets exactly the email-mismatch reply, appending no audit
record (in particular no `get_tracking` lookup happens) and leaving every
other state field unchanged; the subsequent Decide stage short-circuits on
the non-empty reply, so no case is created and `case_id` stays as it was.
Conversely `get_order` authorizes (returns the order) whenever the stored
email equals the supplied one ignoring case. -/
theorem c9_email_mismatch (env : Env) (now : Nat) (st : GraphState)
    (oid em : String) (data : Order)
    (hr : st.reply = "") (ho : st.order_id = some oid) (he : st.email = some em)
    (hdoc : env.orders oid = .found data)
    (hmm : lowerStr data.email ≠ lowerStr em) :
    retrieve_node env st = { st with reply := PERMISSION_REPLY } ∧
    decide_node now (retrieve_node env st) = .ok { st with reply := PERMISSION_REPLY } ∧
    (retrieve_node env st).actions = st.actions ∧
    (retrieve_node env st).case_id = st.case_id ∧
    (∀ oid2 em2 data2, env.orders oid2 = .found data2 →
      lowerStr data2.email = lowerStr em2 → get_order env oid2 em2 = .ok data2) := by
  have hret : retrieve_node env st = { st with reply := PERMISSION_REPLY } := by
    unfold retrieve_node
    rw [hr, ho, he]
    simp [get_order, hdoc, hmm]
  have hne : PERMISSION_REPLY ≠ "" := by decide
  refine ⟨hret, ?_, by rw [hret], by rw [hret], ?_⟩
  · rw [hret]
    unfold decide_node
    simp [hne]
  · intro oid2 em2 data2 h1 h2
    unfold get_order
    rw [h1]
    simp [h2]

theorem c9_email_mismatch_witness :
    retrieve_node c9env c9state = { c9state with reply := PERMISSION_REPLY } ∧
    decide_node 3 (retrieve_node c9env c9state) = .ok { c9state with reply := PERMISSION_REPLY } ∧
    (retrieve_node c9env c9state).actions = c9state.actions ∧
    (retrieve_node c9env c9state).case_id = c9state.case_id ∧
    (∀ oid2 em2 data2, c9env.orders oid2 = .found data2 →
      lowerStr data2.email = lowerStr em2 → get_order c9env oid2 em2 = .ok data2) :=
  c9_email_mismatch c9env 3 c9state "A1001" "X@Y.com" ⟨"A1001", "owner@shop.com", 120, "T9001"⟩
    rfl rfl rfl rfl (by decide)

/-- Only rule 4 of the Diagnosis Engine produces the label
`delivered_not_received`, so that label implies the shipment status is in the
delivered vocabulary. -/
theorem diagnose_ok_delivered_of_dnr (now : Nat) (msg : String) (sh : Shipment) (d : Diagnosis)
    (hd : diagnose now msg sh = .ok d) (hl : d.label = "delivered_not_received") :
    DELIVERED_STATUSES.contains (lowerTrim sh.current_status) = true := by
  simp only [diagnose] at hd
  split_ifs at hd <;>
    first
      | assumption
      | (exfalso
         repeat' split at hd
         all_goals
           first
             | exact Except.noConfusion hd
             | (injection hd with h
                subst h
                exact absurd hl (by decide)))

/-- C3 counterexample: a low-value order (100 ≤ 300) whose shipment is marked
`delivered` with no delivered-timeline timestamp, and a message saying it was
not received, gets the diagnosis label `delivered_not_received` — yet the
Policy Engine returns `escalate`, not `advise_wait_then_investigate`: the
wait-and-check reply requires the latest delivered event to be less than 24
hours old, and with the timestamp missing the low-value branch escalates. -/
theorem c3_counterexample :
    diagnose 0 "It says delivered but not received" ⟨"T2", "C", "delivered", []⟩ =
      .ok ⟨"delivered_not_received", 0.85, "delivered + not received"⟩ ∧
    (100 : ℚ) ≤ HIGH_VALUE_THRESHOLD ∧
    RTS_STATUSES.contains (lowerTrim "delivered") = false ∧
    recommended_action 0 ⟨"A2", "b@c.com", 100, "T2"⟩ ⟨"T2", "C", "delivered", []⟩ =
      .ok "escalate" ∧
    ("escalate" : String) ≠ "advise_wait_then_investigate" :=
  ⟨rfl, by norm_num [HIGH_VALUE_THRESHOLD], rfl, rfl, by decide⟩

/-- C3 amended: for every order and shipment/message pair whose diagnosis
label is `delivered_not_received` (hence the status is in the delivered
vocabulary and not in the return-to-sender one), with order value not above
the 300.0 threshold, the Policy Engine returns `advise_wait_then_investigate`
precisely when the latest delivered-status timeline event carries a parsable,
offset-aware timestamp less than 24 hours old; when that timestamp is missing
or at least 24 hours old the engine returns `escalate` instead (this theorem
proves the recent-delivery direction, the counterexample exhibits the
other). -/
theorem c3_amended_recent_delivery (now : Nat) (order : Order) (shipment : Shipment)
    (message : String) (d : Diagnosis) (dtv : PyDateTime)
    (hd : diagnose now message shipment = .ok d)
    (hl : d.label = "delivered_not_received")
    (hv : order.value ≤ HIGH_VALUE_THRESHOLD)
    (hts : parse_ts (latest_delivered_ts shipment) = some dtv)
    (haware : dtv.aware = true)
    (hrecent : now < dtv.secs + 86400) :
    recommended_action now order shipment = .ok "advise_wait_then_investigate" := by
  have hdel := diagnose_ok_delivered_of_dnr now message shipment d hd hl
  have hmem : lowerTrim shipment.current_status ∈ DELIVERED_STATUSES := by simpa using hdel
  obtain ⟨ts0, hts0⟩ : ∃ ts0, latest_delivered_ts shipment = some ts0 := by
    cases hlat : latest_delivered_ts shipment with
    | none => rw [hlat] at hts; simp [parse_ts] at hts
    | some ts0 => exact ⟨ts0, rfl⟩
  have hts' : parse_ts (some ts0) = some dtv := by rw [← hts0]; exact hts
  have hq : ((now : ℚ) - (dtv.secs : ℚ)) / 3600 < DELIVERED_WAIT_HOURS := by
    have h3600 : (0 : ℚ) < 3600 := by norm_num
    rw [DELIVERED_WAIT_HOURS, div_lt_iff₀ h3600]
    have hc : (now : ℚ) < (dtv.secs : ℚ) + 86400 := by exact_mod_cast hrecent
    linarith
  simp only [DELIVERED_STATUSES, List.mem_cons, List.not_mem_nil, or_false] at hmem
  rcases hmem with h | h | h <;>
    simp [recommended_action, h, hts0, hours_since_ts, hts', haware, hq]

theorem c3_amended_recent_delivery_witness :
    recommended_action 63905127000 ⟨"A2", "b@c.com", 100, "T9002"⟩
        ⟨"T9002", "MockCarrier", "delivered",
          [⟨"2026-01-27T15:10:00Z", "delivered", some "Windsor"⟩]⟩ =
      .ok "advise_wait_then_investigate" :=
  c3_amended_recent_delivery 63905127000 ⟨"A2", "b@c.com", 100, "T9002"⟩
    ⟨"T9002", "MockCarrier", "delivered",
      [⟨"2026-01-27T15:10:00Z", "delivered", some "Windsor"⟩]⟩
    "package missing" ⟨"delivered_not_received", 0.85, "delivered + not received"⟩
    ⟨true, 63905123400⟩ rfl rfl (by norm_num [HIGH_VALUE_THRESHOLD]) (by decide) rfl
    (by norm_num)

/-- Uniform awareness of a nonempty datetime list, phrased like the guard in
`pyMaxDatetimes`. -/
theorem all_aware_iff (d : PyDateTime) (rest : List PyDateTime) :
    rest.all (fun e => e.aware == d.aware) = true ↔ ∀ x ∈ d :: rest, x.aware = d.aware := by
  rw [List.all_eq_true]
  constructor
  · intro hall x hx
    rcases List.mem_cons.mp hx with rfl | hx
    · rfl
    · exact beq_iff_eq.mp (hall x hx)
  · intro hx x hxx
    exact beq_iff_eq.mpr (hx x (List.mem_cons_of_mem _ hxx))

/-- Folding `max` over a list of naturals is invariant under permutation. -/
theorem foldl_max_eq {l1 l2 : List Nat} (h : l1.Perm l2) :
    ∀ a : Nat, l1.foldl max a = l2.foldl max a := by
  induction h with
  | nil => intro a; rfl
  | cons x _ ih => intro a; rw [List.foldl_cons, List.foldl_cons, ih]
  | swap x y l =>
    intro a
    rw [List.foldl_cons, List.foldl_cons, List.foldl_cons, List.foldl_cons,
      Nat.max_right_comm]
  | trans _ _ ih1 ih2 => intro a; rw [ih1, ih2]

/-- Python's `max` over parsed datetimes is invariant under permutation of the
list: the `TypeError` on mixed naive/aware values fires for a permuted list
exactly when it fires for the original, and otherwise the maximum instant is
the same. -/
theorem pyMaxDatetimes_perm {l1 l2 : List PyDateTime} (h : l1.Perm l2) :
    pyMaxDatetimes l1 = pyMaxDatetimes l2 := by
  cases l1 with
  | nil =>
    cases l2 with
    | nil => rfl
    | cons d2 r2 => exact absurd h.length_eq (by simp)
  | cons d1 r1 =>
    cases l2 with
    | nil => exact absurd h.length_eq (by simp)
    | cons d2 r2 =>
      have hd2 : d2 ∈ d1 :: r1 := h.mem_iff.mpr (List.mem_cons_self _ _)
      have hd1 : d1 ∈ d2 :: r2 := h.mem_iff.mp (List.mem_cons_self _ _)
      by_cases hu : ∀ x ∈ d1 :: r1, x.aware = d1.aware
      · have hu2 : ∀ x ∈ d2 :: r2, x.aware = d2.aware := by
          intro x hx
          rw [hu x (h.mem_iff.mpr hx), hu d2 hd2]
        have ha1 : r1.all (fun e => e.aware == d1.aware) = true := (all_aware_iff _ _).mpr hu
        have ha2 : r2.all (fun e => e.aware == d2.aware) = true := (all_aware_iff _ _).mpr hu2
        have haw : d2.aware = d1.aware := hu d2 hd2
        have h1 : (r1.map PyDateTime.secs).foldl max d1.secs =
            ((d1 :: r1).map PyDateTime.secs).foldl max 0 := by
          rw [List.map_cons, List.foldl_cons, Nat.zero_max]
        have h2 : (r2.map PyDateTime.secs).foldl max d2.secs =
            ((d2 :: r2).map PyDateTime.secs).foldl max 0 := by
          rw [List.map_cons, List.foldl_cons, Nat.zero_max]
        have hsecs : (r1.map PyDateTime.secs).foldl max d1.secs =
            (r2.map PyDateTime.secs).foldl max d2.secs := by
          rw [h1, h2, foldl_max_eq (h.map PyDateTime.secs)]
        show pyMaxDatetimes (d1 :: r1) = pyMaxDatetimes (d2 :: r2)
        simp only [pyMaxDatetimes]
        rw [if_pos ha1, if_pos ha2, haw, hsecs]
      · have hu2 : ¬ ∀ x ∈ d2 :: r2, x.aware = d2.aware := by
          intro hcon
          exact hu fun x hx => by rw [hcon x (h.mem_iff.mp hx), hcon d1 hd1]
        have ha1 : ¬ r1.all (fun e => e.aware == d1.aware) = true :=
          fun hc => hu ((all_aware_iff _ _).mp hc)
        have ha2 : ¬ r2.all (fun e => e.aware == d2.aware) = true :=
          fun hc => hu2 ((all_aware_iff _ _).mp hc)
        show pyMaxDatetimes (d1 :: r1) = pyMaxDatetimes (d2 :: r2)
        simp only [pyMaxDatetimes]
        rw [if_neg ha1, if_neg ha2]

/-- `_last_event_ts` is insertion-order independent: permuting the timeline
changes neither the computed maximum nor the raising behavior. -/
theorem last_event_ts_perm {t1 t2 : List TrackingEvent} (h : t1.Perm t2) :
    last_event_ts t1 = last_event_ts t2 := by
  unfold last_event_ts
  have he : t1.isEmpty = t2.isEmpty := by
    cases t1 with
    | nil =>
      cases t2 with
      | nil => rfl
      | cons _ _ => exact absurd h.length_eq (by simp)
    | cons _ _ =>
      cases t2 with
      | nil => exact absurd h.length_eq (by simp)
      | cons _ _ => rfl
  rw [he]
  by_cases h2 : t2.isEmpty = true
  · simp [h2]
  · simp only [h2, Bool.false_eq_true, if_false]
    exact pyMaxDatetimes_perm ((h.filter _).filterMap _)

/-- The guard `hrs and hrs >= 48` of diagnosis rule 6, for an aware timestamp
`t`, holds exactly when at least 48 hours (172800 seconds) have elapsed. -/
theorem hours_threshold_iff (now t : Nat) :
    (((now : ℚ) - (t : ℚ)) / 3600 ≠ 0 ∧ 48 ≤ ((now : ℚ) - (t : ℚ)) / 3600) ↔
      t + 172800 ≤ now := by
  have h3600 : (0 : ℚ) < 3600 := by norm_num
  constructor
  · rintro ⟨-, hge⟩
    rw [le_div_iff₀ h3600] at hge
    have hc : (t : ℚ) + 172800 ≤ (now : ℚ) := by linarith
    exact_mod_cast hc
  · intro hle
    have hc : (t : ℚ) + 172800 ≤ (now : ℚ) := by exact_mod_cast hle
    have hge : (48 : ℚ) ≤ ((now : ℚ) - (t : ℚ)) / 3600 := by
      rw [le_div_iff₀ h3600]
      linarith
    refine ⟨fun h0 => ?_, hge⟩
    rw [h0] at hge
    norm_num at hge

/-- When every parsable timestamp of the timeline is offset-aware,
`_last_event_ts` returns the maximum parsable instant (and never raises). -/
theorem last_event_ts_all_aware (timeline : List TrackingEvent)
    (hall : (timelineDts timeline).all PyDateTime.aware = true) :
    last_event_ts timeline = .ok ((maxParsableTs timeline).map fun t => ⟨true, t⟩) := by
  unfold last_event_ts maxParsableTs
  by_cases ht : timeline.isEmpty = true
  · have : timeline = [] := List.isEmpty_iff.mp ht
    subst this
    rfl
  · simp only [ht, Bool.false_eq_true, if_false]
    cases hdts : timelineDts timeline with
    | nil => simp [pyMaxDatetimes]
    | cons d rest =>
      have hdaw : d.aware = true :=
        List.all_eq_true.mp hall d (by rw [hdts]; exact List.mem_cons_self _ _)
      have hrest : rest.all (fun e => e.aware == d.aware) = true := by
        rw [List.all_eq_true]
        intro x hx
        have hxa : x.aware = true :=
          List.all_eq_true.mp hall x (by rw [hdts]; exact List.mem_cons_of_mem _ hx)
        rw [beq_iff_eq, hxa, hdaw]
      simp only [pyMaxDatetimes]
      rw [if_pos hrest, hdaw]
      rfl

/-- C8 counterexample: the claim says the elapsed-hours computation treats
parsable timestamps uniformly and never fails, but a timestamp without the
UTC marker parses to an offset-naive datetime, and subtracting it from the
offset-aware `datetime.now(timezone.utc)` raises `TypeError`, which escapes
`diagnose`: with status `in_transit` and the single parsable timeline
timestamp `2026-01-28T10:00:00` (no trailing Z), `diagnose` raises instead of
returning `in_transit`/`stuck_in_transit`. -/
theorem c8_counterexample :
    parse_ts (some "2026-01-28T10:00:00") = some ⟨false, epochSecs 2026 1 28 10 0 0⟩ ∧
    diagnose 63905479200 ""
        ⟨"T1", "C", "in_transit", [⟨"2026-01-28T10:00:00", "in_transit", none⟩]⟩ =
      .error .typeError :=
  ⟨by decide, rfl⟩

/-- Folding the Z-replacement over characters that are not `Z` copies them
unchanged. -/
theorem foldr_replaceZ_no_z (l acc : List Char) (h : 'Z' ∉ l) :
    l.foldr (fun c a => if c = 'Z' then '+' :: '0' :: '0' :: ':' :: '0' :: '0' :: a else c :: a)
        acc = l ++ acc := by
  induction l with
  | nil => rfl
  | cons c cs ih =>
    have hc : ¬ c = 'Z' := fun hcc => h (by rw [hcc]; exact List.mem_cons_self _ _)
    have hcs : 'Z' ∉ cs := fun hm => h (List.mem_cons_of_mem _ hm)
    rw [List.foldr_cons, if_neg hc, ih hcs]
    rfl

/-- C8 amended: diagnosis rule 6 computes the hours elapsed since the maximum
parsable timestamp over the whole timeline — independently of the array's
insertion order, tolerating a trailing `Z` and treating unparsable or missing
timestamps as absent — and returns `stuck_in_transit` with confidence 0.75
when at least 48 hours have elapsed and `in_transit` with confidence 0.60
otherwise (including when no timestamp is available), PROVIDED every parsable
timestamp in the timeline carries a UTC offset: by the counterexample, an
offset-naive parsable timestamp makes the computation raise `TypeError`
instead of returning a diagnosis. -/
theorem c8_amended_rule_six :
    (∀ (now : Nat) (msg : String) (sh1 sh2 : Shipment),
      sh1.current_status = sh2.current_status → sh1.timeline.Perm sh2.timeline →
      diagnose now msg sh1 = diagnose now msg sh2) ∧
    (∀ (now : Nat) (msg : String) (sh : Shipment),
      (["in_transit", "out_for_delivery", "picked_up"] : List String).contains
          (lowerTrim sh.current_status) = true →
      substrIn "damag" (lowerTrim msg) = false →
      substrIn "attempt" (lowerTrim msg) = false →
      substrIn "not home" (lowerTrim msg) = false →
      substrIn "delay" (lowerTrim msg) = false →
      (timelineDts sh.timeline).all PyDateTime.aware = true →
      diagnose now msg sh = .ok
        (match maxParsableTs sh.timeline with
          | some t =>
            if t + 172800 ≤ now then ⟨"stuck_in_transit", 0.75, ""⟩
            else ⟨"in_transit", 0.60, ""⟩
          | none => ⟨"in_transit", 0.60, ""⟩)) ∧
    (∀ s : String, 'Z' ∉ s.toList →
      parse_ts (some (s ++ "Z")) = parse_ts (some (s ++ "+00:00"))) ∧
    parse_ts none = none ∧ parse_ts (some "") = none ∧
    parse_ts (some "not a timestamp") = none := by
  refine ⟨?_, ?_, ?_, rfl, rfl, rfl⟩
  · intro now msg sh1 sh2 hstat hperm
    simp only [diagnose]
    rw [hstat, last_event_ts_perm hperm]
  · intro now msg sh hstat hk1 hk2 hk3 hk4 hall
    have hmem : lowerTrim sh.current_status ∈
        (["in_transit", "out_for_delivery", "picked_up"] : List String) := by
      simpa using hstat
    have hlast := last_event_ts_all_aware sh.timeline hall
    simp only [List.mem_cons, List.not_mem_nil, or_false] at hmem
    rcases hmem with h | h | h <;>
    · simp +decide [diagnose, h, hk1, hk2, hk3, hk4, hlast]
      cases hmax : maxParsableTs sh.timeline with
      | none => simp [hmax, hours_since]
      | some t =>
        simp only [hmax, hours_since]
        by_cases hcond : t + 172800 ≤ now
        · have hc : (t : ℚ) + 172800 ≤ (now : ℚ) := by exact_mod_cast hcond
          have hne : ¬ (now : ℚ) - (t : ℚ) = 0 := by
            intro h0
            have h00 : (now : ℚ) = (t : ℚ) := by linarith
            linarith
          have hge : (48 : ℚ) ≤ ((now : ℚ) - (t : ℚ)) / 3600 := by
            rw [le_div_iff₀ (by norm_num : (0 : ℚ) < 3600)]
            linarith
          simp [hcond, hne, hge]
        · have hc : ¬ (t : ℚ) + 172800 ≤ (now : ℚ) := by exact_mod_cast hcond
          have hnot : ¬ (¬ (now : ℚ) - (t : ℚ) = 0 ∧ 48 ≤ ((now : ℚ) - (t : ℚ)) / 3600) := by
            rintro ⟨-, hge⟩
            rw [le_div_iff₀ (by norm_num : (0 : ℚ) < 3600)] at hge
            exact hc (by linarith)
          simp [hcond, hnot]
  · intro s hz
    have hne1 : (s ++ "Z") ≠ "" := by
      intro hc
      have h2 := congrArg String.data hc
      simp [String.data_append] at h2
    have hne2 : (s ++ "+00:00") ≠ "" := by
      intro hc
      have h2 := congrArg String.data hc
      simp [String.data_append] at h2
    have hz1 : replaceZ (s ++ "Z") = String.mk (s.toList ++ "+00:00".toList) := by
      unfold replaceZ
      rw [show (s ++ "Z").toList = s.toList ++ "Z".toList from String.data_append s "Z",
        List.foldr_append, foldr_replaceZ_no_z _ _ hz]
      rfl
    have hz2 : replaceZ (s ++ "+00:00") = String.mk (s.toList ++ "+00:00".toList) := by
      unfold replaceZ
      rw [show (s ++ "+00:00").toList = s.toList ++ "+00:00".toList from
        String.data_append s "+00:00", List.foldr_append, foldr_replaceZ_no_z _ _ hz]
      rfl
    simp only [parse_ts]
    rw [if_neg hne1, if_neg hne2, hz1, hz2]

theorem c8_amended_rule_six_witness :
    diagnose 63905655600 "A1001 order status" c8shipment =
      .ok ⟨"stuck_in_transit", 0.75, ""⟩ ∧
    diagnose 63905655600 "A1001 order status"
        { c8shipment with timeline := c8shipment.timeline.reverse } =
      diagnose 63905655600 "A1001 order status" c8shipment := by
  have h2 := c8_amended_rule_six.2.1 63905655600 "A1001 order status" c8shipment
    (by decide) (by decide) (by decide) (by decide) (by decide) (by decide)
  have hmax : maxParsableTs c8shipment.timeline = some 63905479200 := by decide
  constructor
  · rw [h2, hmax]
    norm_num
  · exact c8_amended_rule_six.1 63905655600 "A1001 order status" _ c8shipment rfl
      (List.reverse_perm _)

/-- A decimal digit is a regex word character. -/
theorem isWordChar_of_isDigit (c : Char) (h : c.isDigit = true) : isWordChar c = true := by
  simp [isWordChar, Char.isAlphanum, h]

/-- `takeWhile isDigit` over digits followed by a non-word character (or the
end of the string) keeps exactly the digits. -/
theorem takeWhile_digits_append (ds post : List Char)
    (hds : ds.all Char.isDigit = true)
    (hpost : ∀ c, post.head? = some c → isWordChar c = false) :
    (ds ++ post).takeWhile Char.isDigit = ds := by
  induction ds with
  | nil =>
    cases post with
    | nil => rfl
    | cons c cs =>
      have hc : isWordChar c = false := hpost c rfl
      have hcd : ¬ c.isDigit = true := by
        intro hd
        rw [isWordChar_of_isDigit c hd] at hc
        exact absurd hc (by simp)
      simp [List.takeWhile_cons, hcd]
  | cons d ds ih =>
    have hd : d.isDigit = true := List.all_eq_true.mp hds d (List.mem_cons_self _ _)
    have hds' : ds.all Char.isDigit = true := by
      rw [List.all_eq_true]
      intro x hx
      exact List.all_eq_true.mp hds x (List.mem_cons_of_mem _ hx)
    simp [List.takeWhile_cons, hd, ih hds']

/-- Soundness of the greedy `\d{3,6}\b` matcher. -/
theorem matchDigitsRun_sound : ∀ (ks : List Nat) (ds rest m : List Char),
    matchDigitsRun ds rest ks = some m →
    ∃ k, k ∈ ks ∧ k ≤ ds.length ∧ m = ds.take k ∧ boundaryAfter (rest.drop k) = true := by
  intro ks
  induction ks with
  | nil =>
    intro ds rest m h
    exact absurd h (by simp [matchDigitsRun])
  | cons k ks ih =>
    intro ds rest m h
    unfold matchDigitsRun at h
    by_cases hc : k ≤ ds.length ∧ boundaryAfter (rest.drop k) = true
    · rw [if_pos hc] at h
      injection h with h
      exact ⟨k, List.mem_cons_self _ _, hc.1, h.symm, hc.2⟩
    · rw [if_neg hc] at h
      obtain ⟨k2, hk2, h1, h2, h3⟩ := ih ds rest m h
      exact ⟨k2, List.mem_cons_of_mem _ hk2, h1, h2, h3⟩

/-- Completeness of the greedy `\d{3,6}\b` matcher when the digit run has an
in-range length and is followed by a boundary. -/
theorem matchDigitsRun_complete (ds rest : List Char)
    (h3 : 3 ≤ ds.length) (h6 : ds.length ≤ 6)
    (hb : boundaryAfter (rest.drop ds.length) = true) :
    ∃ m, matchDigitsRun ds rest [6, 5, 4, 3] = some m := by
  have hcase : ds.length = 3 ∨ ds.length = 4 ∨ ds.length = 5 ∨ ds.length = 6 := by omega
  rcases hcase with h | h | h | h <;>
    (rw [h] at hb; simp [matchDigitsRun, h, hb])

/-- Soundness of the anchored `\bA\d{3,6}\b` matcher: a match decomposes the
input into the literal A, an in-range digit run, and a right boundary, under a
left boundary on the preceding character. -/
theorem matchOrderIdAt_sound (prev : Option Char) (l m : List Char)
    (h : matchOrderIdAt prev l = some m) :
    (∀ p, prev = some p → isWordChar p = false) ∧
    ∃ ds post, l = 'A' :: (ds ++ post) ∧ ds.all Char.isDigit = true ∧
      3 ≤ ds.length ∧ ds.length ≤ 6 ∧
      (∀ c, post.head? = some c → isWordChar c = false) := by
  unfold matchOrderIdAt at h
  by_cases hp : prev.all (fun p => !isWordChar p) = true
  case neg =>
    rw [if_neg hp] at h
    exact absurd h (by simp)
  rw [if_pos hp] at h
  have hprev : ∀ p, prev = some p → isWordChar p = false := by
    intro p hpeq
    rw [hpeq, Option.all_some] at hp
    simpa using hp
  refine ⟨hprev, ?_⟩
  cases l with
  | nil => exact absurd h (by simp)
  | cons c rest =>
    dsimp only at h
    by_cases hca : c = 'A'
    case neg =>
      rw [if_neg hca] at h
      exact absurd h (by simp)
    rw [if_pos hca] at h
    subst hca
    cases hrun : matchDigitsRun (rest.takeWhile Char.isDigit) rest [6, 5, 4, 3] with
    | none =>
      rw [hrun] at h
      exact absurd h (by simp)
    | some ds0 =>
      obtain ⟨k, hkmem, hkle, -, hbnd⟩ := matchDigitsRun_sound _ _ _ _ hrun
      have hk36 : 3 ≤ k ∧ k ≤ 6 := by
        fin_cases hkmem <;> omega
      obtain ⟨t, ht⟩ := List.takeWhile_prefix (l := rest) Char.isDigit
      have htake : rest.take k = (rest.takeWhile Char.isDigit).take k := by
        conv_lhs => rw [← ht]
        rw [List.take_append_of_le_length hkle]
      refine ⟨(rest.takeWhile Char.isDigit).take k, rest.drop k, ?_, ?_, ?_, ?_, ?_⟩
      · rw [← htake, List.take_append_drop]
      · rw [List.all_eq_true]
        intro x hx
        exact List.mem_takeWhile_imp (List.take_subset _ _ hx)
      · rw [List.length_take]
        omega
      · rw [List.length_take]
        have := List.length_take k (rest.takeWhile Char.isDigit)
        omega
      · intro c hc
        cases hdrop : rest.drop k with
        | nil =>
          rw [hdrop] at hc
          simp at hc
        | cons c0 cs0 =>
          rw [hdrop] at hbnd hc
          simp only [List.head?_cons, Option.some.injEq] at hc
          subst hc
          simpa [boundaryAfter] using hbnd

/-- Completeness of the anchored matcher. -/
theorem matchOrderIdAt_complete (prev : Option Char) (ds post : List Char)
    (hds : ds.all Char.isDigit = true) (h3 : 3 ≤ ds.length) (h6 : ds.length ≤ 6)
    (hpost : ∀ c, post.head? = some c → isWordChar c = false)
    (hprev : ∀ p, prev = some p → isWordChar p = false) :
    (matchOrderIdAt prev ('A' :: (ds ++ post))).isSome = true := by
  have hp : prev.all (fun p => !isWordChar p) = true := by
    cases prev with
    | none => rfl
    | some p => simp [Option.all_some, hprev p rfl]
  have htw : (ds ++ post).takeWhile Char.isDigit = ds :=
    takeWhile_digits_append ds post hds hpost
  have hb : boundaryAfter ((ds ++ post).drop ds.length) = true := by
    rw [List.drop_left]
    cases post with
    | nil => rfl
    | cons c0 cs0 => simp [boundaryAfter, hpost c0 rfl]
  have hrest : ((ds ++ post).takeWhile Char.isDigit).length = ds.length := by rw [htw]
  obtain ⟨m, hm⟩ := matchDigitsRun_complete ((ds ++ post).takeWhile Char.isDigit) (ds ++ post)
    (by rw [htw]; exact h3) (by rw [htw]; exact h6) (by rw [hrest]; exact hb)
  simp [matchOrderIdAt, hp, hm]

/-- Soundness of the left-to-right scan: a successful search yields a
word-bounded decomposition of the scanned list. -/
theorem searchOrderIdAux_sound : ∀ (l : List Char) (prev : Option Char) (m : List Char),
    searchOrderIdAux prev l = some m →
    ∃ pre ds post, l = pre ++ 'A' :: (ds ++ post) ∧ ds.all Char.isDigit = true ∧
      3 ≤ ds.length ∧ ds.length ≤ 6 ∧
      ((pre = [] ∧ ∀ p, prev = some p → isWordChar p = false) ∨
        (∃ c, pre.getLast? = some c ∧ isWordChar c = false)) ∧
      (∀ c, post.head? = some c → isWordChar c = false) := by
  intro l
  induction l with
  | nil =>
    intro prev m h
    exact absurd h (by simp [searchOrderIdAux])
  | cons c cs ih =>
    intro prev m h
    unfold searchOrderIdAux at h
    cases hm : matchOrderIdAt prev (c :: cs) with
    | some m0 =>
      obtain ⟨hprev, ds, post, hdec, hdig, h3, h6, hpost⟩ := matchOrderIdAt_sound prev _ _ hm
      exact ⟨[], ds, post, by simpa using hdec, hdig, h3, h6, Or.inl ⟨rfl, hprev⟩, hpost⟩
    | none =>
      rw [hm] at h
      obtain ⟨pre, ds, post, hdec, hdig, h3, h6, hleft, hpost⟩ := ih (some c) m h
      refine ⟨c :: pre, ds, post, by simp [hdec], hdig, h3, h6, ?_, hpost⟩
      rcases hleft with ⟨hpre0, hpok⟩ | ⟨c0, hc0, hw0⟩
      · subst hpre0
        exact Or.inr ⟨c, by simp, hpok c rfl⟩
      · refine Or.inr ⟨c0, ?_, hw0⟩
        cases pre with
        | nil => simp at hc0
        | cons p ps =>
          rw [List.getLast?_cons_cons]
          exact hc0

/-- Completeness of the left-to-right scan: a word-bounded decomposition makes
the search succeed (possibly at an earlier position). -/
theorem searchOrderIdAux_complete : ∀ (pre : List Char) (prev : Option Char) (ds post : List Char),
    ds.all Char.isDigit = true → 3 ≤ ds.length → ds.length ≤ 6 →
    (∀ c, post.head? = some c → isWordChar c = false) →
    ((pre = [] ∧ ∀ p, prev = some p → isWordChar p = false) ∨
      (∃ c, pre.getLast? = some c ∧ isWordChar c = false)) →
    (searchOrderIdAux prev (pre ++ 'A' :: (ds ++ post))).isSome = true := by
  intro pre
  induction pre with
  | nil =>
    intro prev ds post hdig h3 h6 hpost hleft
    have hprev : ∀ p, prev = some p → isWordChar p = false := by
      rcases hleft with ⟨-, hp⟩ | ⟨c0, hc0, -⟩
      · exact hp
      · simp at hc0
    have hm := matchOrderIdAt_complete prev ds post hdig h3 h6 hpost hprev
    obtain ⟨m0, hm0⟩ := Option.isSome_iff_exists.mp hm
    simp [searchOrderIdAux, hm0]
  | cons c pre' ih =>
    intro prev ds post hdig h3 h6 hpost hleft
    rw [List.cons_append]
    cases hm : matchOrderIdAt prev (c :: (pre' ++ 'A' :: (ds ++ post))) with
    | some m0 => simp [searchOrderIdAux, hm]
    | none =>
      have hleft' : (pre' = [] ∧ ∀ p, some c = some p → isWordChar p = false) ∨
          (∃ c0, pre'.getLast? = some c0 ∧ isWordChar c0 = false) := by
        rcases hleft with ⟨hpre0, -⟩ | ⟨c0, hc0, hw0⟩
        · exact absurd hpre0 (by simp)
        · cases pre' with
          | nil =>
            left
            refine ⟨rfl, ?_⟩
            intro p hp
            injection hp with hp
            subst hp
            simp only [List.getLast?_singleton, Option.some.injEq] at hc0
            rwa [hc0]
          | cons q qs =>
            right
            refine ⟨c0, ?_, hw0⟩
            rw [List.getLast?_cons_cons] at hc0
            exact hc0
      have hrec := ih (some c) ds post hdig h3 h6 hpost hleft'
      simp [searchOrderIdAux, hm, hrec]

/-- C10: order-id extraction in the rule-based intent extractor is
case-sensitive and runs on the raw, un-normalized message: an order id is
extracted if and only if the original message contains a word-bounded
occurrence of the uppercase letter A followed by 3 to 6 digits; a lowercase
id such as `a1004` is never extracted and leaves `order_id` in
`missing_fields`, even though keyword-based intent matching operates on the
lowercased message (the two casings below give identical intents but
different extractions). -/
theorem c10_order_id_extraction :
    (∀ s : String, (stub_intent s).extracted_order_id.isSome = true ↔ hasBoundedOrderId s) ∧
    (stub_intent "Where is my order a1004").extracted_order_id = none ∧
    "order_id" ∈ (stub_intent "Where is my order a1004").missing_fields ∧
    (stub_intent "Package damaged, order A1004").extracted_order_id = some "A1004" ∧
    (stub_intent "Package damaged, order A1004").intent =
      (stub_intent "package damaged, order a1004").intent ∧
    (stub_intent "package damaged, order a1004").extracted_order_id = none := by
  refine ⟨?_, by decide, by decide, by decide, by decide, by decide⟩
  intro s
  have hproj : (stub_intent s).extracted_order_id =
      (searchOrderIdAux none s.toList).map String.mk := rfl
  rw [hproj]
  constructor
  · intro hs
    obtain ⟨m, hm⟩ : ∃ m, searchOrderIdAux none s.toList = some m := by
      cases hx : searchOrderIdAux none s.toList with
      | none => rw [hx] at hs; simp at hs
      | some m => exact ⟨m, rfl⟩
    obtain ⟨pre, ds, post, hdec, hdig, h3, h6, hleft, hpost⟩ := searchOrderIdAux_sound _ _ _ hm
    refine ⟨pre, ds, post, hdec, hdig, h3, h6, ?_, hpost⟩
    intro c hc
    rcases hleft with ⟨hpre0, -⟩ | ⟨c0, hc0, hw0⟩
    · subst hpre0
      simp at hc
    · rw [hc0] at hc
      injection hc with hc
      rwa [← hc]
  · rintro ⟨pre, ds, post, hdec, hdig, h3, h6, hpre, hpost⟩
    have hleft : (pre = [] ∧ ∀ p, (none : Option Char) = some p → isWordChar p = false) ∨
        (∃ c, pre.getLast? = some c ∧ isWordChar c = false) := by
      cases hgl : pre.getLast? with
      | none =>
        exact Or.inl ⟨List.getLast?_eq_none_iff.mp hgl, fun p hp => Option.noConfusion hp⟩
      | some c => exact Or.inr ⟨c, rfl, hpre c hgl⟩
    have hcomp := searchOrderIdAux_complete pre none ds post hdig h3 h6 hpost hleft
    rw [hdec]
    obtain ⟨m0, hm0⟩ := Option.isSome_iff_exists.mp hcomp
    rw [hm0]
    rfl

theorem c10_order_id_extraction_witness :
    (stub_intent "check A1004").extracted_order_id.isSome = true :=
  (c10_order_id_extraction.1 "check A1004").mpr
    ⟨"check ".toList, ['1', '0', '0', '4'], [], by decide, by decide, by decide, by decide,
      by
        intro c hc
        simp only [show ("check ".toList).getLast? = some ' ' from rfl,
          Option.some.injEq] at hc
        subst hc
        decide,
      by
        intro c hc
        simp at hc⟩
